import Mathlib

/-!
Verification of the key2ser runtime pipeline (src/key2ser/runner.py) against its
natural-language specification.  The Python functions are shallowly embedded as
pure Lean functions: mutable `BufferState` updates become explicit state passing,
monotonic-clock reads become an explicit `now : ℚ` argument, and the serial port
is modelled as an ideal sink that records each `write` call as a chunk of bytes
(a `List ℕ`); transport failures of the port itself are outside the properties
proved here.  Python `float` times and durations are modelled as `ℚ`, which is
exact and decidable; all comparisons used by the code are order comparisons.
The text-encoding collaborator (Python's codec machinery) is modelled as an
abstract `Codec` argument returning either the encoded bytes, a
`UnicodeEncodeError`, or a `LookupError`, exactly the three outcomes
`_encode_payload` distinguishes.
-/

namespace Key2Ser

/-- Send mode enumeration; `output.send_mode ∈ {on_enter, per_char, idle_timeout}`
(validated by config.py). -/
inductive SendMode
  | on_enter
  | per_char
  | idle_timeout
deriving DecidableEq, Repr

/-- Embedding of the `BufferState` dataclass (runner.py lines 26-37).
`shift_keys` is a Python `set`; it is modelled as a duplicate-free list, with
`List.insert` (membership-checked cons) for `set.add` and `List.erase` for
`set.discard`. -/
structure BufferState where
  text : String := ""
  shift_keys : List String := []
  kana_mode : Bool := false
  last_input_time : Option ℚ := none
  last_sent_payload : Option String := none
  last_sent_time : Option ℚ := none
deriving DecidableEq, Repr

/-- `BufferState.shift_active` property: `bool(self.shift_keys)`. -/
def BufferState.shift_active (s : BufferState) : Bool :=
  !s.shift_keys.isEmpty

/-- Outcome of running a payload through the configured codec.  This is the
interface of Python's `str.encode`: success with bytes, `UnicodeEncodeError`
(a character not representable under the `strict` error policy), or
`LookupError` (unknown encoding label). -/
inductive EncodeResult
  | ok (data : List ℕ)
  | unicodeError
  | lookupError
deriving DecidableEq, Repr

/-- A codec: the external encoding collaborator, a pure function from the
payload string to an encode outcome. -/
def Codec : Type := String → EncodeResult

/-- Python's `ascii` codec under the `strict` error policy: succeeds with the
code points when every character is in the ASCII range, otherwise raises
`UnicodeEncodeError`.  Used as a concrete codec instance in witnesses and
counterexamples. -/
def asciiStrict : Codec := fun s =>
  if s.toList.all (fun c => c.toNat < 128) then
    EncodeResult.ok (s.toList.map (fun c => c.toNat))
  else
    EncodeResult.unicodeError

/-- Error kinds raised on the send path. `payloadEncode` is
`PayloadEncodeError`, `valueError` the `ValueError` raised for an unknown
encoding, `serialConnection` is `SerialConnectionError`. -/
inductive SendError
  | payloadEncode
  | valueError
  | serialConnection
deriving DecidableEq, Repr

/-- Embedding of `_encode_payload` (runner.py lines 299-306): converts
`UnicodeEncodeError` to `PayloadEncodeError` and `LookupError` to `ValueError`. -/
def encode_payload (codec : Codec) (payload : String) : Except SendError (List ℕ) :=
  match codec payload with
  | EncodeResult.ok data => Except.ok data
  | EncodeResult.unicodeError => Except.error SendError.payloadEncode
  | EncodeResult.lookupError => Except.error SendError.valueError

/-- Serial configuration fields used by the send path (a fragment of the
`SerialConfig` dataclass in config.py; the remaining fields configure the port
open and the PTY, which the byte-level send does not read). -/
structure SerialConfig where
  baudrate : ℤ
  bytesize : ℕ
  parity : String
  stopbits : ℚ
  emulate_timing : Bool
deriving DecidableEq, Repr

/-- Embedding of `_calculate_frame_seconds` (runner.py lines 309-313).
Division is exact in `ℚ`; `load_config` guarantees `baudrate ≥ 1`, so the
Python `ZeroDivisionError` case (baudrate = 0, where `ℚ` division yields 0)
is unreachable for validated configurations. -/
def calculate_frame_seconds (serial_config : SerialConfig) : ℚ :=
  let parity_bits : ℚ := if serial_config.parity = "N" then 0 else 1
  let bits_per_frame : ℚ := 1 + (serial_config.bytesize : ℚ) + parity_bits + serial_config.stopbits
  bits_per_frame / (serial_config.baudrate : ℚ)

/-- Embedding of `_send_payload` (runner.py lines 359-370) against an ideal
port: the result is the list of `port.write` calls made (each a chunk of
bytes).  A `PayloadEncodeError` is caught and logged, producing no write;
the `ValueError` for an unknown encoding propagates. -/
def send_payload (codec : Codec) (payload : String) : Except SendError (List (List ℕ)) :=
  match encode_payload codec payload with
  | Except.error SendError.payloadEncode => Except.ok []
  | Except.error e => Except.error e
  | Except.ok data => Except.ok [data]

/-- Embedding of `_send_payload_with_timing` (runner.py lines 317-356) against
an ideal port (every single-byte write reports 1 byte written, so the
short-write retry loop succeeds on the first attempt).  Empty data returns
before the frame-time computation; when the frame time is not positive the
function falls back to `_send_payload`; otherwise each byte is written as its
own chunk, paced by sleeps that do not affect the bytes produced. -/
def send_payload_with_timing (codec : Codec) (payload : String)
    (serial_config : SerialConfig) : Except SendError (List (List ℕ)) :=
  match encode_payload codec payload with
  | Except.error SendError.payloadEncode => Except.ok []
  | Except.error e => Except.error e
  | Except.ok data =>
    if data.isEmpty then Except.ok []
    else if calculate_frame_seconds serial_config ≤ 0 then
      send_payload codec payload
    else
      Except.ok (data.map (fun b => [b]))

/-- Embedding of `_should_suppress_duplicate` (runner.py lines 373-387). -/
def should_suppress_duplicate (state : BufferState) (payload : String)
    (dedup_window_seconds now : ℚ) : Bool :=
  if dedup_window_seconds ≤ 0 then false
  else
    match state.last_sent_payload, state.last_sent_time with
    | some last_payload, some last_time =>
      if payload ≠ last_payload then false
      else decide (now - last_time ≤ dedup_window_seconds)
    | _, _ => false

/-- Result of a dedup-guarded send: the write calls made and the state after. -/
structure DedupResult where
  writes : List (List ℕ)
  state : BufferState
deriving DecidableEq, Repr

/-- Embedding of `_send_payload_with_dedup` (runner.py lines 391-424).
`now` is the single `time.monotonic()` read at function entry.  On
suppression nothing is written and the state is untouched; otherwise the send
helper runs (timed or plain according to `emulate_timing`) and, when it
returns without raising, `last_sent_payload` / `last_sent_time` are assigned. -/
def send_payload_with_dedup (codec : Codec) (payload : String)
    (state : BufferState) (send_mode : SendMode)
    (dedup_window_seconds now : ℚ) (serial_config : SerialConfig) :
    Except SendError DedupResult :=
  if send_mode ≠ SendMode.per_char ∧
      should_suppress_duplicate state payload dedup_window_seconds now = true then
    Except.ok ⟨[], state⟩
  else
    let sent :=
      if serial_config.emulate_timing then
        send_payload_with_timing codec payload serial_config
      else
        send_payload codec payload
    match sent with
    | Except.error e => Except.error e
    | Except.ok writes =>
      Except.ok ⟨writes,
        { state with last_sent_payload := some payload, last_sent_time := some now }⟩

/-- Embedding of `_reset_buffer` (runner.py lines 428-431): clears `text` and
`last_input_time`, touching nothing else. -/
def reset_buffer (state : BufferState) : BufferState :=
  { state with text := "", last_input_time := none }

/-- Keymap interface (the static collaborator): a pure function from
`(keycode, shift, kana)` to an optional output string. -/
def KeyMapper : Type := String → Bool → Bool → Option String

/-- Modelled from the spec: `SHIFT_KEYCODES`, a constant of the keymap module
(`key2ser/keymap.py`, not present under src/).  The spec describes the
shift-like keys as "left/right shift". -/
def SHIFT_KEYCODES : List String := ["KEY_LEFTSHIFT", "KEY_RIGHTSHIFT"]

/-- Embedding of `_handle_key_down` (runner.py lines 626-666).  The keymap
module's constant keycode sets (`SHIFT_KEYCODES`, `KANA_TOGGLE_KEYCODES`,
whose source file is not under src/) are passed as the `shiftKeycodes` /
`kanaKeycodes` arguments; `now` is the value `time.monotonic()` would return
during this call.  Returns the payload handed to the send policy (if any)
and the updated state. -/
def handle_key_down (shiftKeycodes kanaKeycodes : List String)
    (keycode : String) (state : BufferState) (keymap : KeyMapper)
    (line_end : String) (terminator_keys : List String)
    (send_on_enter : Bool) (send_mode : SendMode) (now : ℚ) :
    Option String × BufferState :=
  if keycode ∈ shiftKeycodes then
    (none, { state with shift_keys := state.shift_keys.insert keycode })
  else if keycode ∈ kanaKeycodes then
    (none, { state with kana_mode := !state.kana_mode })
  else if keycode ∈ terminator_keys ∧ send_mode = SendMode.on_enter then
    let payload :=
      if state.text ≠ "" ∨ send_on_enter = true then some (state.text ++ line_end)
      else none
    (payload, reset_buffer state)
  else if keycode = "KEY_BACKSPACE" then
    if send_mode ≠ SendMode.per_char then
      let state' := { state with text := state.text.dropRight 1 }
      if send_mode = SendMode.idle_timeout then
        (none, { state' with last_input_time := some now })
      else
        (none, state')
    else
      (none, state)
  else
    match keymap keycode state.shift_active state.kana_mode with
    | some m =>
      if m = "" then (none, state)
      else if send_mode = SendMode.per_char then
        (some m, state)
      else
        let state' := { state with text := state.text ++ m }
        if send_mode = SendMode.idle_timeout then
          (none, { state' with last_input_time := some now })
        else
          (none, state')
    | none => (none, state)

/-- Embedding of `_handle_key_up` (runner.py lines 670-673). -/
def handle_key_up (shiftKeycodes : List String) (keycode : String)
    (state : BufferState) : BufferState :=
  if keycode ∈ shiftKeycodes then
    { state with shift_keys := state.shift_keys.erase keycode }
  else
    state

/-- Embedding of `_maybe_flush_idle_timeout` (runner.py lines 677-691):
returns the flushed payload (if any) together with the state after the call. -/
def maybe_flush_idle_timeout (state : BufferState) (line_end : String)
    (idle_timeout_seconds now : ℚ) : Option String × BufferState :=
  match state.last_input_time with
  | none => (none, state)
  | some last_input =>
    if state.text = "" then (none, state)
    else if now - last_input < idle_timeout_seconds then (none, state)
    else (some (state.text ++ line_end), reset_buffer state)

/-- A kernel input event after `categorize`: the event type, the keycode names
carried (`_iter_keycodes` normalises the single-keycode case to a one-element
list), and the key state value (0 = up, 1 = down, 2 = repeat/hold). -/
structure InputEvent where
  type : ℕ
  keycodes : List String
  keystate : ℕ
deriving DecidableEq, Repr

/-- `ecodes.EV_KEY`. -/
def EV_KEY : ℕ := 1

/-- `KeyEvent.key_down`. -/
def key_down_value : ℕ := 1

/-- `KeyEvent.key_up`. -/
def key_up_value : ℕ := 0

/-- `KeyEvent.key_hold`, the kernel value of an auto-repeat event. -/
def key_hold_value : ℕ := 2

/-- One iteration of the key-down dispatch loop of `_process_key_event`:
handle the keycode against the accumulated state and append the produced
payload candidate, if any. -/
def down_step (shiftKeycodes kanaKeycodes : List String) (keymap : KeyMapper)
    (line_end : String) (terminator_keys : List String) (send_on_enter : Bool)
    (send_mode : SendMode) (now : ℚ) (acc : List String × BufferState)
    (keycode : String) : List String × BufferState :=
  let step := handle_key_down shiftKeycodes kanaKeycodes keycode acc.2 keymap
    line_end terminator_keys send_on_enter send_mode now
  (acc.1 ++ step.1.toList, step.2)

/-- Embedding of `_process_key_event` (runner.py lines 719-752) at decoder
level: it returns the payload candidates produced (in dispatch order) and the
buffer state after the event.  In the source each candidate is handed to
`_send_payload_if_present` immediately; that call touches only the
`last_sent_payload` / `last_sent_time` fields, which `_handle_key_down` and
`_handle_key_up` never read, so collecting the candidates is observationally
equal for the decoder fields.  The send policy itself is
`send_payload_with_dedup` above. -/
def process_key_event (shiftKeycodes kanaKeycodes : List String)
    (keymap : KeyMapper) (line_end : String) (terminator_keys : List String)
    (send_on_enter : Bool) (send_mode : SendMode)
    (event : InputEvent) (state : BufferState) (now : ℚ) :
    List String × BufferState :=
  if event.type ≠ EV_KEY then ([], state)
  else if event.keystate = key_down_value then
    event.keycodes.foldl
      (down_step shiftKeycodes kanaKeycodes keymap line_end terminator_keys
        send_on_enter send_mode now)
      (([] : List String), state)
  else if event.keystate = key_up_value then
    ([], event.keycodes.foldl (fun st kc => handle_key_up shiftKeycodes kc st) state)
  else
    ([], state)

/-- Decoder state after a sequence of timed input events, starting from a
given state (each list entry is the event together with the monotonic time at
which it is processed). -/
def process_events (shiftKeycodes kanaKeycodes : List String)
    (keymap : KeyMapper) (line_end : String) (terminator_keys : List String)
    (send_on_enter : Bool) (send_mode : SendMode)
    (events : List (InputEvent × ℚ)) (state : BufferState) : BufferState :=
  events.foldl
    (fun st ev =>
      (process_key_event shiftKeycodes kanaKeycodes keymap line_end
        terminator_keys send_on_enter send_mode ev.1 st ev.2).2)
    state

/-- Error kinds visible to the supervisor.  The first three are the
reconnect-eligible runtime errors; `valueError` covers `ValueError` (bad
`input.mode`, unknown encoding) and `runtimeError` any other exception. -/
inductive ErrorKind
  | deviceNotFound
  | deviceAccess
  | serialConnection
  | valueError
  | runtimeError
deriving DecidableEq, Repr

/-- The kinds named in the supervisor's `except` clause
(`DeviceNotFoundError, DeviceAccessError, SerialConnectionError`). -/
def reconnect_eligible : ErrorKind → Bool
  | ErrorKind.deviceNotFound => true
  | ErrorKind.deviceAccess => true
  | ErrorKind.serialConnection => true
  | _ => false

/-- Outcome of one supervisor iteration (open device, grab, run the inner
event loop): either the inner loop returned normally or some exception kind
was raised.  The iterations' interactions with devices and the serial port are
abstracted into this outcome, which is what the supervisor's control flow
dispatches on. -/
inductive Attempt
  | success
  | failure (kind : ErrorKind)
deriving DecidableEq, Repr

/-- Final observable outcome of `run_event_loop`: returned normally, raised an
error kind, or is still looping (the supplied attempt list ran out). -/
inductive RunOutcome
  | finished
  | raised (kind : ErrorKind)
  | pending
deriving DecidableEq, Repr

/-- The supervisor `while True` loop of `run_event_loop` (runner.py lines
856-884), driven by the sequence of iteration outcomes.  Returns the list of
`time.sleep` durations performed and the final outcome. -/
def supervise (reconnect_interval_seconds : ℚ) :
    List Attempt → List ℚ × RunOutcome
  | [] => ([], RunOutcome.pending)
  | Attempt.success :: _ => ([], RunOutcome.finished)
  | Attempt.failure kind :: rest =>
    if reconnect_eligible kind then
      if reconnect_interval_seconds ≤ 0 then ([], RunOutcome.raised kind)
      else
        let tail := supervise reconnect_interval_seconds rest
        (reconnect_interval_seconds :: tail.1, tail.2)
    else
      ([], RunOutcome.raised kind)

/-- Embedding of `run_event_loop` (runner.py lines 849-884): the
`input.mode != "evdev"` guard raises `ValueError` before the loop; otherwise
the supervisor loop runs over the iteration outcomes. -/
def run_event_loop (input_mode : String) (reconnect_interval_seconds : ℚ)
    (attempts : List Attempt) : List ℚ × RunOutcome :=
  if input_mode ≠ "evdev" then ([], RunOutcome.raised ErrorKind.valueError)
  else supervise reconnect_interval_seconds attempts

/-- An opened input device as the selection code observes it: identity fields,
the optional `name` / `phys` / `uniq` strings, and its `EV_KEY` capability set
given as the list of supported key names (the `ecodes` table translating names
to codes is a fixed external bijection, so membership by name is membership by
code; a configured name absent from the table resolves to no device). -/
structure Device where
  path : String
  vendor : ℤ
  product : ℤ
  name : Option String
  phys : Option String
  uniq : Option String
  ev_keys : List String
deriving DecidableEq, Repr

/-- The input-configuration fields read by device selection
(`InputConfig` in config.py). -/
structure InputCfg where
  vendor_id : ℤ
  product_id : ℤ
  device_name_contains : Option String
  prefer_event_has_keys : List String
deriving DecidableEq, Repr

/-- Embedding of `_match_device_info` (runner.py lines 49-51). -/
def match_device_info (device : Device) (vendor_id product_id : ℤ) : Bool :=
  device.vendor = vendor_id && device.product = product_id

/-- Embedding of `_normalize_device_hint` (runner.py lines 176-178):
lower-case the string, mapping `None` (and the empty string) to `""`. -/
def normalize_device_hint : Option String → String
  | none => ""
  | some v => if v = "" then "" else v.toLower

/-- Substring test (`hint in name` on Python strings), as an infix check on
the character lists. -/
def strContains (haystack needle : String) : Bool :=
  decide (needle.toList <:+: haystack.toList)

/-- Embedding of `_device_has_keys` (runner.py lines 182-196): false when the
`EV_KEY` capability list is empty, else true when any requested key name is
among the device's keys. -/
def device_has_keys (device : Device) (keys : List String) : Bool :=
  if device.ev_keys.isEmpty then false
  else keys.any (fun k => k ∈ device.ev_keys)

/-- Embedding of `_score_device` (runner.py lines 200-212): +2 for a preferred
`EV_KEY` capability (when the preference list is non-empty), +1 for the
case-insensitive name hint matching name, phys or uniq. -/
def score_device (device : Device) (config : InputCfg) : ℤ :=
  let base : ℤ :=
    if !config.prefer_event_has_keys.isEmpty &&
        device_has_keys device config.prefer_event_has_keys then 2 else 0
  match config.device_name_contains with
  | none => base
  | some hintRaw =>
    if hintRaw = "" then base
    else
      let hint := hintRaw.toLower
      if strContains (normalize_device_hint device.name) hint ||
          strContains (normalize_device_hint device.phys) hint ||
          strContains (normalize_device_hint device.uniq) hint then
        base + 1
      else base

/-- Comparator used for the Python `scored.sort(key=score, reverse=True)`:
`scoreDesc a b` holds when `a` may stay before `b`, i.e. descending by score.
`List.insertionSort` with this total preorder is stable, so it produces the
same list as Python's stable `sort(..., reverse=True)`. -/
def scoreDesc (a b : Device × ℤ) : Prop :=
  b.2 ≤ a.2

instance : DecidableRel scoreDesc := fun a b =>
  inferInstanceAs (Decidable (b.2 ≤ a.2))

instance : IsTotal (Device × ℤ) scoreDesc :=
  ⟨fun a b => le_total b.2 a.2⟩

instance : IsTrans (Device × ℤ) scoreDesc :=
  ⟨fun _ _ _ h1 h2 => le_trans h2 h1⟩

/-- The `scored` list of `_select_single_device` after the stable descending
sort: each candidate paired with its score, highest first, ties in original
order. -/
def scoredSorted (matched : List Device) (config : InputCfg) :
    List (Device × ℤ) :=
  (matched.map (fun d => (d, score_device d config))).insertionSort scoreDesc

/-- Embedding of `_select_single_device` (runner.py lines 215-237).  Devices
are compared by value (the Python code compares object identity; callers pass
lists of distinct opened devices).  Returns the chosen device, if any,
together with the devices closed by this call. -/
def select_single_device (matched : List Device) (config : InputCfg) :
    Option Device × List Device :=
  match matched with
  | [] => (none, [])
  | [d] => (some d, [])
  | _ =>
    let scored := scoredSorted matched config
    match scored with
    | (best_device, best_score) :: rest =>
      let runner_up_score := ((rest.headD (best_device, best_score)).2)
      if 0 < best_score ∧ runner_up_score < best_score then
        (some best_device, (scored.map Prod.fst).filter (fun d => d ≠ best_device))
      else
        (none, [])
    | [] => (none, [])

/-- Errors raised by device selection, carrying the message of the Python
exception. -/
inductive SelectError
  | deviceNotFound (msg : String)
  | deviceAccess (msg : String)
deriving DecidableEq, Repr

/-- Message of the multiple-match refusal in `_select_device_by_vid_pid`. -/
def multipleMatchesMsg : String :=
  "VID/PIDが一致するデバイスが複数あります。deviceを指定してください。"

/-- The VID/PID-matching candidates among the opened devices, in enumeration
order. -/
def vid_pid_matches (devices : List Device) (config : InputCfg) :
    List Device :=
  devices.filter (fun d => match_device_info d config.vendor_id config.product_id)

/-- Embedding of `_select_device_by_vid_pid` (runner.py lines 242-270) from
the point where the candidate paths have been opened: `devices` is the list of
successfully opened devices (in enumeration order) and `access_error` records
whether any open failed mid-scan.  Returns the selected device or the raised
error, together with every device closed along the way. -/
def select_device_by_vid_pid (devices : List Device) (access_error : Bool)
    (config : InputCfg) : Except SelectError Device × List Device :=
  let matched := vid_pid_matches devices config
  let non_matches := devices.filter
    (fun d => !match_device_info d config.vendor_id config.product_id)
  if matched.isEmpty then
    if access_error then
      (Except.error (SelectError.deviceAccess "入力デバイスのオープンに失敗しました。"), non_matches)
    else
      (Except.error (SelectError.deviceNotFound
        "指定されたVID/PIDに一致する入力デバイスが見つかりません。"), non_matches)
  else
    match select_single_device matched config with
    | (some d, closed) => (Except.ok d, non_matches ++ closed)
    | (none, closed) =>
      (Except.error (SelectError.deviceNotFound multipleMatchesMsg),
        non_matches ++ closed ++ matched)

/-! ## Shared lemmas and concrete instances used by witnesses -/

/-- Concrete keymap instance for witnesses and counterexamples: maps `KEY_A`
to `a` / `A` and nothing else (the default keymap table is an external
collaborator; any instance of the interface may be plugged in). -/
def km0 : KeyMapper := fun keycode shift _kana =>
  if keycode = "KEY_A" then (if shift then some "A" else some "a") else none

/-- Concrete serial configuration for witnesses: 9600 8N1, no timing
emulation. -/
def cfg0 : SerialConfig := ⟨9600, 8, "N", 1, false⟩

/-- Flattening per-byte chunks recovers the byte list. -/
theorem flatten_map_singleton (l : List ℕ) :
    (l.map (fun b => [b])).flatten = l := by
  induction l with
  | nil => rfl
  | cons b t ih => simp [ih]

/-- Unfolding of `should_suppress_duplicate` as a proposition. -/
theorem should_suppress_duplicate_iff (s : BufferState) (payload : String)
    (w now : ℚ) :
    should_suppress_duplicate s payload w now = true ↔
      0 < w ∧ s.last_sent_payload = some payload ∧
        ∃ t, s.last_sent_time = some t ∧ now - t ≤ w := by
  unfold should_suppress_duplicate
  by_cases hw : w ≤ 0
  · simp only [if_pos hw]
    constructor
    · intro h; cases h
    · rintro ⟨hpos, -⟩; exact absurd hw (not_le.mpr hpos)
  · simp only [if_neg hw]
    cases hp : s.last_sent_payload with
    | none => simp
    | some lp =>
      cases ht : s.last_sent_time with
      | none => simp
      | some lt =>
        by_cases hpe : payload = lp
        · subst hpe
          simp [not_le.mp hw]
        · simp [hpe]
          rintro - h
          exact absurd h.symm hpe

/-! ## C3: idle-timeout flush -/

/-- C3 (confirmed): in the idle-timeout loop, an idle flush occurs if and only
if `text` is non-empty, `last_input_time` is set, and
`now − last_input_time ≥ idle_timeout_seconds`; when it occurs it emits
`text ++ line_end` and resets both `text` and `last_input_time`. -/
theorem C3_idle_flush (s : BufferState) (line_end : String)
    (idle_timeout_seconds now : ℚ) :
    ((maybe_flush_idle_timeout s line_end idle_timeout_seconds now).1.isSome ↔
      (s.text ≠ "" ∧ ∃ t, s.last_input_time = some t ∧
        idle_timeout_seconds ≤ now - t)) ∧
    (∀ t, s.last_input_time = some t → s.text ≠ "" →
      idle_timeout_seconds ≤ now - t →
      maybe_flush_idle_timeout s line_end idle_timeout_seconds now =
        (some (s.text ++ line_end),
          { s with text := "", last_input_time := none })) := by
  constructor
  · constructor
    · intro hsome
      unfold maybe_flush_idle_timeout at hsome
      cases hlt : s.last_input_time with
      | none => rw [hlt] at hsome; simp at hsome
      | some t =>
        rw [hlt] at hsome
        by_cases htext : s.text = ""
        · simp [htext] at hsome
        · by_cases hlate : now - t < idle_timeout_seconds
          · simp [htext, hlate] at hsome
          · exact ⟨htext, t, rfl, not_lt.mp hlate⟩
    · rintro ⟨htext, t, hlt, hdue⟩
      unfold maybe_flush_idle_timeout
      rw [hlt]
      simp [htext, not_lt.mpr hdue]
  · intro t hlt htext hdue
    unfold maybe_flush_idle_timeout
    rw [hlt]
    simp [htext, not_lt.mpr hdue, reset_buffer]

/-- Witness for C3 at the spec's S3 scenario: `text = "a"` entered at t = 10,
checked at t = 10.6 with a 0.5 s idle timeout flushes `"a\r\n"` and resets. -/
theorem C3_idle_flush_witness :
    maybe_flush_idle_timeout ⟨"a", [], false, some 10, none, none⟩ "\r\n"
        (1/2) (53/5) =
      (some "a\r\n", ⟨"", [], false, none, none, none⟩) :=
  (C3_idle_flush ⟨"a", [], false, some 10, none, none⟩ "\r\n" (1/2) (53/5)).2
    10 rfl (by decide) (by norm_num)

/-! ## C10: flushes modify only text and last_input_time -/

/-- C10 (confirmed): every flush — the terminator-triggered flush in
`_handle_key_down` and the idle-timeout flush — changes the buffer state
exactly by `_reset_buffer`, which clears `text` and `last_input_time` and
leaves `shift_keys`, `kana_mode`, `last_sent_payload` and `last_sent_time`
unchanged. -/
theorem C10_flush_frame (s : BufferState) :
    ((reset_buffer s).shift_keys = s.shift_keys ∧
      (reset_buffer s).kana_mode = s.kana_mode ∧
      (reset_buffer s).last_sent_payload = s.last_sent_payload ∧
      (reset_buffer s).last_sent_time = s.last_sent_time ∧
      (reset_buffer s).text = "" ∧ (reset_buffer s).last_input_time = none) ∧
    (∀ (shiftKeycodes kanaKeycodes : List String) (keycode : String)
        (keymap : KeyMapper) (line_end : String)
        (terminator_keys : List String) (send_on_enter : Bool) (now : ℚ),
      keycode ∉ shiftKeycodes → keycode ∉ kanaKeycodes →
      keycode ∈ terminator_keys →
      (handle_key_down shiftKeycodes kanaKeycodes keycode s keymap line_end
        terminator_keys send_on_enter SendMode.on_enter now).2 =
        reset_buffer s) ∧
    (∀ (line_end : String) (idle_timeout_seconds now : ℚ) (p : String)
        (s' : BufferState),
      maybe_flush_idle_timeout s line_end idle_timeout_seconds now =
        (some p, s') → s' = reset_buffer s) := by
  refine ⟨⟨rfl, rfl, rfl, rfl, rfl, rfl⟩, ?_, ?_⟩
  · intro shiftKC kanaKC kc km le term soe now h1 h2 h3
    unfold handle_key_down
    rw [if_neg (by simpa using h1), if_neg (by simpa using h2),
      if_pos ⟨h3, rfl⟩]
  · intro le tmo now p s' h
    unfold maybe_flush_idle_timeout at h
    cases hlt : s.last_input_time with
    | none => rw [hlt] at h; simp at h
    | some t =>
      rw [hlt] at h
      by_cases htext : s.text = ""
      · simp [htext] at h
      · by_cases hlate : now - t < tmo
        · simp [htext, hlate] at h
        · simp [htext, hlate] at h
          exact h.2.symm

/-- Witness for C10: a terminator flush in `on_enter` mode from a state with
held shift, kana mode, and dedup history keeps those four fields. -/
theorem C10_flush_frame_witness :
    (handle_key_down SHIFT_KEYCODES [] "KEY_ENTER"
        ⟨"ab", ["KEY_LEFTSHIFT"], true, none, some "q", some 3⟩ km0 "\r\n"
        ["KEY_ENTER", "KEY_KPENTER"] true SendMode.on_enter 0).2 =
      ⟨"", ["KEY_LEFTSHIFT"], true, none, some "q", some 3⟩ :=
  ((C10_flush_frame ⟨"ab", ["KEY_LEFTSHIFT"], true, none, some "q", some 3⟩).2.1
    SHIFT_KEYCODES [] "KEY_ENTER" km0 "\r\n" ["KEY_ENTER", "KEY_KPENTER"]
    true 0 (by decide) (by decide) (by decide)).trans rfl

/-! ## C9: frame time and fallback -/

/-- C9 (confirmed): the byte-pacing frame time equals
`(1 + bytesize + parity_bits + stopbits) / baudrate` with `parity_bits = 0`
exactly for parity `N`, and whenever that frame time is ≤ 0 the paced send
produces the same outcome and bytes as the single-write send. -/
theorem C9_frame_time (serial_config : SerialConfig) (codec : Codec)
    (payload : String) :
    calculate_frame_seconds serial_config =
      (1 + (serial_config.bytesize : ℚ) +
        (if serial_config.parity = "N" then (0 : ℚ) else 1) +
        serial_config.stopbits) / (serial_config.baudrate : ℚ) ∧
    (calculate_frame_seconds serial_config ≤ 0 →
      (send_payload_with_timing codec payload serial_config).map List.flatten =
        (send_payload codec payload).map List.flatten) := by
  refine ⟨rfl, ?_⟩
  intro hframe
  cases hc : codec payload with
  | ok data =>
    cases data with
    | nil =>
      simp [send_payload_with_timing, send_payload, encode_payload, hc,
        Except.map]
    | cons b t =>
      simp [send_payload_with_timing, send_payload, encode_payload, hc, hframe]
  | unicodeError =>
    simp [send_payload_with_timing, send_payload, encode_payload, hc,
      Except.map]
  | lookupError =>
    simp [send_payload_with_timing, send_payload, encode_payload, hc,
      Except.map]

/-- Witness for C9's fallback branch: a (non-validated) negative baudrate
makes the frame time negative, and the paced send then yields the same bytes
as the single write. -/
theorem C9_frame_time_witness :
    calculate_frame_seconds ⟨-9600, 8, "N", 1, true⟩ ≤ 0 ∧
    (send_payload_with_timing asciiStrict "ab" ⟨-9600, 8, "N", 1, true⟩).map
        List.flatten =
      (send_payload asciiStrict "ab").map List.flatten := by
  have hneg : calculate_frame_seconds ⟨-9600, 8, "N", 1, true⟩ ≤ 0 := by
    simp only [calculate_frame_seconds]
    norm_num
  exact ⟨hneg, (C9_frame_time ⟨-9600, 8, "N", 1, true⟩ asciiStrict "ab").2 hneg⟩

/-! ## C1 and C4: the dedup-guarded send -/

/-- Suppression condition of claim C1: the send mode is not `per_char`, the
dedup window is strictly positive, the payload equals `last_sent_payload`,
and the current monotonic time minus `last_sent_time` is at most the window. -/
def dedupSuppressCond (s : BufferState) (payload : String) (send_mode : SendMode)
    (dedup_window_seconds now : ℚ) : Prop :=
  send_mode ≠ SendMode.per_char ∧ 0 < dedup_window_seconds ∧
    s.last_sent_payload = some payload ∧
    ∃ t, s.last_sent_time = some t ∧ now - t ≤ dedup_window_seconds

/-- The dedup fields after a non-suppressed send attempt. -/
def dedupUpdate (s : BufferState) (payload : String) (now : ℚ) : BufferState :=
  { s with last_sent_payload := some payload, last_sent_time := some now }

/-- The guard of `send_payload_with_dedup` is exactly the C1 suppression
condition. -/
theorem dedup_guard_iff (s : BufferState) (payload : String) (mode : SendMode)
    (w now : ℚ) :
    (mode ≠ SendMode.per_char ∧
        should_suppress_duplicate s payload w now = true) ↔
      dedupSuppressCond s payload mode w now := by
  rw [should_suppress_duplicate_iff]
  unfold dedupSuppressCond
  tauto

/-- Claim C1 as frozen, instantiated at one input: the write is suppressed
(no bytes, state untouched) when the condition holds, and in every other case
the payload's encoded bytes are written and the dedup fields updated. -/
def C1_claim_at (codec : Codec) (payload : String) (s : BufferState)
    (mode : SendMode) (w now : ℚ) (cfg : SerialConfig) : Prop :=
  (dedupSuppressCond s payload mode w now →
    send_payload_with_dedup codec payload s mode w now cfg =
      Except.ok ⟨[], s⟩) ∧
  (¬ dedupSuppressCond s payload mode w now →
    ∃ data writes, codec payload = EncodeResult.ok data ∧
      send_payload_with_dedup codec payload s mode w now cfg =
        Except.ok ⟨writes, dedupUpdate s payload now⟩ ∧
      writes.flatten = data)

/-- Counterexample to C1 as frozen: a payload that fails to encode under
`strict` (here `"あ"` through the `ascii` codec) is not suppressed, yet no
bytes are written — the "in every other case the payload is written" half is
false at this input. -/
theorem C1_counterexample :
    ¬ C1_claim_at asciiStrict "あ" ⟨"", [], false, none, none, none⟩
      SendMode.on_enter 2 10 cfg0 := by
  intro h
  have hnc : ¬ dedupSuppressCond ⟨"", [], false, none, none, none⟩ "あ"
      SendMode.on_enter 2 10 := by
    rintro ⟨-, -, hlp, -⟩
    exact Option.noConfusion hlp
  obtain ⟨data, writes, hcodec, -, -⟩ := h.2 hnc
  have : asciiStrict "あ" = EncodeResult.unicodeError := by decide
  rw [this] at hcodec
  exact EncodeResult.noConfusion hcodec

/-- Characterisation of `send_payload_with_dedup`: suppression under exactly
the C1 condition; otherwise the send is attempted and the dedup fields
updated, with the write outcome determined by the codec result. -/
theorem send_payload_with_dedup_spec (codec : Codec) (payload : String) (s : BufferState)
    (mode : SendMode) (w now : ℚ) (cfg : SerialConfig) :
    (dedupSuppressCond s payload mode w now →
      send_payload_with_dedup codec payload s mode w now cfg =
        Except.ok ⟨[], s⟩) ∧
    (¬ dedupSuppressCond s payload mode w now →
      match codec payload with
      | EncodeResult.ok data =>
        ∃ writes,
          send_payload_with_dedup codec payload s mode w now cfg =
            Except.ok ⟨writes, dedupUpdate s payload now⟩ ∧
          writes.flatten = data
      | EncodeResult.unicodeError =>
        send_payload_with_dedup codec payload s mode w now cfg =
          Except.ok ⟨[], dedupUpdate s payload now⟩
      | EncodeResult.lookupError =>
        send_payload_with_dedup codec payload s mode w now cfg =
          Except.error SendError.valueError) := by
  constructor
  · intro hc
    unfold send_payload_with_dedup
    rw [if_pos ((dedup_guard_iff s payload mode w now).mpr hc)]
  · intro hnc
    have hguard : ¬ (mode ≠ SendMode.per_char ∧
        should_suppress_duplicate s payload w now = true) :=
      fun h => hnc ((dedup_guard_iff s payload mode w now).mp h)
    cases hc : codec payload with
    | unicodeError =>
      cases hmt : cfg.emulate_timing with
      | true =>
        simp [send_payload_with_dedup, hguard, send_payload_with_timing,
          encode_payload, hc, hmt, dedupUpdate]
      | false =>
        simp [send_payload_with_dedup, hguard, send_payload,
          encode_payload, hc, hmt, dedupUpdate]
    | lookupError =>
      cases hmt : cfg.emulate_timing with
      | true =>
        simp [send_payload_with_dedup, hguard, send_payload_with_timing,
          encode_payload, hc, hmt]
      | false =>
        simp [send_payload_with_dedup, hguard, send_payload,
          encode_payload, hc, hmt]
    | ok data =>
      cases hmt : cfg.emulate_timing with
      | false =>
        refine ⟨[data], ?_, by simp⟩
        simp [send_payload_with_dedup, hguard, send_payload,
          encode_payload, hc, hmt, dedupUpdate]
      | true =>
        by_cases hemp : data = []
        · subst hemp
          refine ⟨[], ?_, rfl⟩
          simp [send_payload_with_dedup, hguard, send_payload_with_timing,
            encode_payload, hc, hmt, dedupUpdate]
        · by_cases hfr : calculate_frame_seconds cfg ≤ 0
          · refine ⟨[data], ?_, by simp⟩
            simp [send_payload_with_dedup, hguard, send_payload_with_timing,
              send_payload, encode_payload, hc, hmt, hemp, hfr, dedupUpdate]
          · refine ⟨data.map (fun b => [b]), ?_, flatten_map_singleton data⟩
            simp [send_payload_with_dedup, hguard, send_payload_with_timing,
              encode_payload, hc, hmt, hemp, hfr, dedupUpdate]

/-- C1 (amended): suppression happens under exactly the stated condition; in
every other case the send is attempted and the dedup fields are updated to
the payload and current time — the encoded bytes are written when the payload
encodes, nothing is written when encoding fails under `strict`, and an
unknown-encoding error propagates without the update. -/
theorem C1_amended (codec : Codec) (payload : String) (s : BufferState)
    (mode : SendMode) (w now : ℚ) (cfg : SerialConfig) :
    (dedupSuppressCond s payload mode w now →
      send_payload_with_dedup codec payload s mode w now cfg =
        Except.ok ⟨[], s⟩) ∧
    (¬ dedupSuppressCond s payload mode w now →
      match codec payload with
      | EncodeResult.ok data =>
        ∃ writes,
          send_payload_with_dedup codec payload s mode w now cfg =
            Except.ok ⟨writes, dedupUpdate s payload now⟩ ∧
          writes.flatten = data
      | EncodeResult.unicodeError =>
        send_payload_with_dedup codec payload s mode w now cfg =
          Except.ok ⟨[], dedupUpdate s payload now⟩
      | EncodeResult.lookupError =>
        send_payload_with_dedup codec payload s mode w now cfg =
          Except.error SendError.valueError) :=
  send_payload_with_dedup_spec codec payload s mode w now cfg

/-- Witness for C1 (amended), suppression branch: a repeat of the last-sent
payload inside the window in `on_enter` mode produces no write and leaves the
state untouched. -/
theorem C1_amended_witness :
    send_payload_with_dedup asciiStrict "ab"
        ⟨"", [], false, none, some "ab", some 9⟩ SendMode.on_enter 2 10 cfg0 =
      Except.ok ⟨[], ⟨"", [], false, none, some "ab", some 9⟩⟩ :=
  (C1_amended asciiStrict "ab" ⟨"", [], false, none, some "ab", some 9⟩
      SendMode.on_enter 2 10 cfg0).1
    ⟨by decide, by norm_num, rfl, 9, rfl, by norm_num⟩

/-- Counterexample to C4 as frozen: after a failed `strict` encode the dedup
state does not keep its previous value — `last_sent_payload` moves from
`none` to the undeliverable payload. -/
theorem C4_counterexample :
    send_payload_with_dedup asciiStrict "あ" ⟨"", [], false, none, none, none⟩
        SendMode.on_enter 2 10 cfg0 =
      Except.ok ⟨[], ⟨"", [], false, none, some "あ", some 10⟩⟩ ∧
    (some "あ" : Option String) ≠ none := by
  exact ⟨rfl, by decide⟩

/-- C4 (amended): an encoding failure under `strict` is handled as a
per-payload warning — no exception escapes the send path and no bytes are
written, and the decoder-owned fields are untouched — but, unless the write
was suppressed by dedup, `last_sent_payload` and `last_sent_time` are
nevertheless updated to the attempted payload and the current monotonic
time. -/
theorem C4_amended (codec : Codec) (payload : String) (s : BufferState)
    (mode : SendMode) (w now : ℚ) (cfg : SerialConfig)
    (henc : codec payload = EncodeResult.unicodeError) :
    ∃ s', send_payload_with_dedup codec payload s mode w now cfg =
        Except.ok ⟨[], s'⟩ ∧
      s'.text = s.text ∧ s'.shift_keys = s.shift_keys ∧
      s'.kana_mode = s.kana_mode ∧ s'.last_input_time = s.last_input_time ∧
      (dedupSuppressCond s payload mode w now → s' = s) ∧
      (¬ dedupSuppressCond s payload mode w now →
        s'.last_sent_payload = some payload ∧
          s'.last_sent_time = some now) := by
  by_cases hcond : dedupSuppressCond s payload mode w now
  · refine ⟨s, ?_, rfl, rfl, rfl, rfl, fun _ => rfl, fun h => absurd hcond h⟩
    exact (send_payload_with_dedup_spec codec payload s mode w now cfg).1 hcond
  · refine ⟨dedupUpdate s payload now, ?_, rfl, rfl, rfl, rfl,
      fun h => absurd h hcond, fun _ => ⟨rfl, rfl⟩⟩
    have h2 := (send_payload_with_dedup_spec codec payload s mode w now cfg).2 hcond
    rw [henc] at h2
    exact h2

/-- Witness for C4 (amended) at the counterexample input. -/
theorem C4_amended_witness :
    ∃ s', send_payload_with_dedup asciiStrict "あ"
        ⟨"", [], false, none, none, none⟩ SendMode.on_enter 2 10 cfg0 =
      Except.ok ⟨[], s'⟩ ∧
      s'.text = "" ∧ s'.shift_keys = [] ∧ s'.kana_mode = false ∧
      s'.last_input_time = none ∧
      (dedupSuppressCond ⟨"", [], false, none, none, none⟩ "あ"
          SendMode.on_enter 2 10 → s' = ⟨"", [], false, none, none, none⟩) ∧
      (¬ dedupSuppressCond ⟨"", [], false, none, none, none⟩ "あ"
          SendMode.on_enter 2 10 →
        s'.last_sent_payload = some "あ" ∧ s'.last_sent_time = some 10) :=
  C4_amended asciiStrict "あ" ⟨"", [], false, none, none, none⟩
    SendMode.on_enter 2 10 cfg0 (by decide)

/-! ## C2: terminator flush in on_enter mode -/

/-- Claim C2 as frozen, at one input: in `on_enter` mode, a key-down of any
keycode in the configured terminator set emits `text ++ line_end` exactly when
`text` is non-empty or `send_on_enter` is true, and resets the buffer. -/
def C2_claim_at (shiftKeycodes kanaKeycodes : List String) (keycode : String)
    (s : BufferState) (keymap : KeyMapper) (line_end : String)
    (terminator_keys : List String) (send_on_enter : Bool) (now : ℚ) : Prop :=
  keycode ∈ terminator_keys →
    handle_key_down shiftKeycodes kanaKeycodes keycode s keymap line_end
        terminator_keys send_on_enter SendMode.on_enter now =
      ((if s.text ≠ "" ∨ send_on_enter = true then some (s.text ++ line_end)
        else none), reset_buffer s)

/-- Counterexample to C2 as frozen: the decoder checks the shift and kana
branches first, so a shift keycode configured as a terminator (a legal
configuration — `output.terminator_keys` accepts arbitrary key names) is
consumed by the shift branch: nothing is emitted and the buffer keeps its
text. -/
theorem C2_counterexample :
    ¬ C2_claim_at SHIFT_KEYCODES [] "KEY_LEFTSHIFT"
      ⟨"x", [], false, none, none, none⟩ km0 "\r\n" ["KEY_LEFTSHIFT"]
      true 0 := by
  intro h
  exact absurd (h (by decide)) (by decide)

/-- C2 (amended): in `on_enter` mode, a key-down of a terminator-set keycode
that is not itself a shift-like or kana-toggle keycode emits
`text ++ line_end` exactly when `text` is non-empty or `send_on_enter` is
true (and nothing otherwise), and in both cases resets `text` to empty and
`last_input_time` to unset. -/
theorem C2_amended (shiftKeycodes kanaKeycodes : List String) (keycode : String)
    (s : BufferState) (keymap : KeyMapper) (line_end : String)
    (terminator_keys : List String) (send_on_enter : Bool) (now : ℚ)
    (hshift : keycode ∉ shiftKeycodes) (hkana : keycode ∉ kanaKeycodes)
    (hterm : keycode ∈ terminator_keys) :
    handle_key_down shiftKeycodes kanaKeycodes keycode s keymap line_end
        terminator_keys send_on_enter SendMode.on_enter now =
      ((if s.text ≠ "" ∨ send_on_enter = true then some (s.text ++ line_end)
        else none), reset_buffer s) ∧
    (reset_buffer s).text = "" ∧ (reset_buffer s).last_input_time = none := by
  refine ⟨?_, rfl, rfl⟩
  unfold handle_key_down
  rw [if_neg (by simpa using hshift), if_neg (by simpa using hkana),
    if_pos ⟨hterm, rfl⟩]

/-- Witness for C2 (amended): Enter flushes a two-character buffer. -/
theorem C2_amended_witness :
    handle_key_down SHIFT_KEYCODES [] "KEY_ENTER"
        ⟨"ab", [], false, none, none, none⟩ km0 "\r\n"
        ["KEY_ENTER", "KEY_KPENTER"] true SendMode.on_enter 0 =
      (some "ab\r\n", ⟨"", [], false, none, none, none⟩) :=
  ((C2_amended SHIFT_KEYCODES [] "KEY_ENTER"
      ⟨"ab", [], false, none, none, none⟩ km0 "\r\n"
      ["KEY_ENTER", "KEY_KPENTER"] true 0 (by decide) (by decide)
      (by decide)).1).trans (by decide)

/-! ## C6: repeat events -/

/-- Counterexample to C6 as frozen: an auto-repeat event (kernel value 2) of
the mapped keycode `KEY_A` in `per_char` mode produces no payload, while the
corresponding down event produces `"a"` — repeat is not treated as down. -/
theorem C6_counterexample :
    process_key_event SHIFT_KEYCODES [] km0 "\r\n" ["KEY_ENTER", "KEY_KPENTER"]
        true SendMode.per_char ⟨1, ["KEY_A"], 2⟩
        ⟨"", [], false, none, none, none⟩ 0 =
      ([], ⟨"", [], false, none, none, none⟩) ∧
    process_key_event SHIFT_KEYCODES [] km0 "\r\n" ["KEY_ENTER", "KEY_KPENTER"]
        true SendMode.per_char ⟨1, ["KEY_A"], 1⟩
        ⟨"", [], false, none, none, none⟩ 0 =
      (["a"], ⟨"", [], false, none, none, none⟩) ∧
    ([] : List String) ≠ ["a"] := by
  refine ⟨by decide, by decide, by decide⟩

/-- C6 (amended): the decoder ignores repeat events entirely — a key event
with kernel value 2 (`key_hold`) matches neither the down nor the up branch
of `_process_key_event`, so it produces no payload candidate and leaves the
buffer state unchanged. -/
theorem C6_amended (shiftKeycodes kanaKeycodes : List String)
    (keymap : KeyMapper) (line_end : String) (terminator_keys : List String)
    (send_on_enter : Bool) (send_mode : SendMode) (event : InputEvent)
    (s : BufferState) (now : ℚ) (hrep : event.keystate = key_hold_value) :
    process_key_event shiftKeycodes kanaKeycodes keymap line_end
        terminator_keys send_on_enter send_mode event s now = ([], s) := by
  unfold process_key_event
  by_cases ht : event.type ≠ EV_KEY
  · rw [if_pos ht]
  · rw [if_neg ht, if_neg (by rw [hrep]; decide), if_neg (by rw [hrep]; decide)]

/-- Witness for C6 (amended) at the counterexample's repeat event. -/
theorem C6_amended_witness :
    process_key_event SHIFT_KEYCODES [] km0 "\r\n" ["KEY_ENTER", "KEY_KPENTER"]
        true SendMode.per_char ⟨1, ["KEY_A"], 2⟩
        ⟨"", [], false, none, none, none⟩ 0 =
      ([], ⟨"", [], false, none, none, none⟩) :=
  C6_amended SHIFT_KEYCODES [] km0 "\r\n" ["KEY_ENTER", "KEY_KPENTER"]
    true SendMode.per_char ⟨1, ["KEY_A"], 2⟩
    ⟨"", [], false, none, none, none⟩ 0 rfl

/-! ## C5: the empty-text invariant -/

/-- The invariant named by claim C5: an empty buffer text implies an unset
`last_input_time`. -/
def bufferInv (s : BufferState) : Prop :=
  s.text = "" → s.last_input_time = none

/-- Appending a non-empty string never yields the empty string. -/
theorem string_append_ne_empty {s m : String} (hm : m ≠ "") : s ++ m ≠ "" := by
  intro h
  have hl := congrArg String.length h
  simp [String.length_append] at hl
  refine hm ?_
  have hm0 : m.length = 0 := hl.2
  cases m with
  | mk data =>
    cases data with
    | nil => rfl
    | cons c t => simp [String.length] at hm0

/-- `_handle_key_up` never touches `text` or `last_input_time`. -/
theorem handle_key_up_fields (shiftKeycodes : List String) (keycode : String)
    (s : BufferState) :
    (handle_key_up shiftKeycodes keycode s).text = s.text ∧
      (handle_key_up shiftKeycodes keycode s).last_input_time =
        s.last_input_time := by
  unfold handle_key_up
  split_ifs <;> exact ⟨rfl, rfl⟩

/-- Outside `idle_timeout` mode, `_handle_key_down` never arms
`last_input_time`. -/
theorem handle_key_down_lit_none (shiftKeycodes kanaKeycodes : List String)
    (keycode : String) (s : BufferState) (keymap : KeyMapper)
    (line_end : String) (terminator_keys : List String) (send_on_enter : Bool)
    (send_mode : SendMode) (now : ℚ)
    (hmode : send_mode ≠ SendMode.idle_timeout)
    (h : s.last_input_time = none) :
    (handle_key_down shiftKeycodes kanaKeycodes keycode s keymap line_end
      terminator_keys send_on_enter send_mode now).2.last_input_time = none := by
  unfold handle_key_down
  by_cases h1 : keycode ∈ shiftKeycodes
  · rw [if_pos h1]; exact h
  rw [if_neg h1]
  by_cases h2 : keycode ∈ kanaKeycodes
  · rw [if_pos h2]; exact h
  rw [if_neg h2]
  by_cases h3 : keycode ∈ terminator_keys ∧ send_mode = SendMode.on_enter
  · rw [if_pos h3]; rfl
  rw [if_neg h3]
  by_cases h4 : keycode = "KEY_BACKSPACE"
  · rw [if_pos h4]
    by_cases h5 : send_mode ≠ SendMode.per_char
    · rw [if_pos h5, if_neg hmode]; exact h
    · rw [if_neg h5]; exact h
  rw [if_neg h4]
  split
  next heq =>
    rename_i m
    by_cases hm0 : m = ""
    · rw [if_pos hm0]; exact h
    rw [if_neg hm0]
    by_cases h5 : send_mode = SendMode.per_char
    · rw [if_pos h5]; exact h
    · rw [if_neg h5, if_neg hmode]; exact h
  next heq => exact h

/-- In `idle_timeout` mode, `_handle_key_down` preserves the C5 invariant for
every keycode except Backspace. -/
theorem handle_key_down_inv_idle (shiftKeycodes kanaKeycodes : List String)
    (keycode : String) (s : BufferState) (keymap : KeyMapper)
    (line_end : String) (terminator_keys : List String) (send_on_enter : Bool)
    (now : ℚ) (hkc : keycode ≠ "KEY_BACKSPACE") (hinv : bufferInv s) :
    bufferInv (handle_key_down shiftKeycodes kanaKeycodes keycode s keymap
      line_end terminator_keys send_on_enter SendMode.idle_timeout now).2 := by
  unfold handle_key_down
  by_cases h1 : keycode ∈ shiftKeycodes
  · rw [if_pos h1]; exact hinv
  rw [if_neg h1]
  by_cases h2 : keycode ∈ kanaKeycodes
  · rw [if_pos h2]; exact hinv
  rw [if_neg h2,
    if_neg (fun hc : _ ∧ SendMode.idle_timeout = SendMode.on_enter =>
      SendMode.noConfusion hc.2),
    if_neg hkc]
  split
  next heq =>
    rename_i m
    by_cases hm0 : m = ""
    · rw [if_pos hm0]; exact hinv
    rw [if_neg hm0,
      if_neg (fun hc : SendMode.idle_timeout = SendMode.per_char =>
        SendMode.noConfusion hc),
      if_pos rfl]
    intro htext
    exact absurd htext (string_append_ne_empty hm0)
  next heq => exact hinv

/-- The key-down dispatch loop preserves `last_input_time = none` outside
`idle_timeout` mode. -/
theorem foldl_down_lit_none (shiftKeycodes kanaKeycodes : List String)
    (keymap : KeyMapper) (line_end : String) (terminator_keys : List String)
    (send_on_enter : Bool) (send_mode : SendMode) (now : ℚ)
    (hmode : send_mode ≠ SendMode.idle_timeout) :
    ∀ (l : List String) (acc : List String × BufferState),
      acc.2.last_input_time = none →
      (l.foldl (down_step shiftKeycodes kanaKeycodes keymap line_end
        terminator_keys send_on_enter send_mode now) acc).2.last_input_time =
        none := by
  intro l
  induction l with
  | nil => intro acc h; exact h
  | cons kc t ih =>
    intro acc h
    rw [List.foldl_cons]
    exact ih _ (handle_key_down_lit_none shiftKeycodes kanaKeycodes kc acc.2
      keymap line_end terminator_keys send_on_enter send_mode now hmode h)

/-- The key-down dispatch loop preserves the C5 invariant in `idle_timeout`
mode when Backspace is not among the keycodes. -/
theorem foldl_down_inv_idle (shiftKeycodes kanaKeycodes : List String)
    (keymap : KeyMapper) (line_end : String) (terminator_keys : List String)
    (send_on_enter : Bool) (now : ℚ) :
    ∀ (l : List String) (acc : List String × BufferState),
      "KEY_BACKSPACE" ∉ l → bufferInv acc.2 →
      bufferInv (l.foldl (down_step shiftKeycodes kanaKeycodes keymap line_end
        terminator_keys send_on_enter SendMode.idle_timeout now) acc).2 := by
  intro l
  induction l with
  | nil => intro acc _ h; exact h
  | cons kc t ih =>
    intro acc hbs h
    rw [List.foldl_cons]
    exact ih _ (fun hmem => hbs (List.mem_cons_of_mem _ hmem))
      (handle_key_down_inv_idle shiftKeycodes kanaKeycodes kc acc.2 keymap
        line_end terminator_keys send_on_enter now
        (fun he => hbs (he ▸ List.mem_cons_self _ _)) h)

/-- The key-up dispatch loop never touches `text` or `last_input_time`. -/
theorem foldl_up_fields (shiftKeycodes : List String) :
    ∀ (l : List String) (s : BufferState),
      (l.foldl (fun st kc => handle_key_up shiftKeycodes kc st) s).text =
          s.text ∧
        (l.foldl (fun st kc => handle_key_up shiftKeycodes kc st)
          s).last_input_time = s.last_input_time := by
  intro l
  induction l with
  | nil => intro s; exact ⟨rfl, rfl⟩
  | cons kc t ih =>
    intro s
    rw [List.foldl_cons]
    obtain ⟨h1, h2⟩ := ih (handle_key_up shiftKeycodes kc s)
    obtain ⟨g1, g2⟩ := handle_key_up_fields shiftKeycodes kc s
    exact ⟨h1.trans g1, h2.trans g2⟩

/-- One processed event preserves the C5 invariant, provided that, in
`idle_timeout` mode, a down event does not carry Backspace. -/
theorem process_key_event_inv (shiftKeycodes kanaKeycodes : List String)
    (keymap : KeyMapper) (line_end : String) (terminator_keys : List String)
    (send_on_enter : Bool) (send_mode : SendMode) (event : InputEvent)
    (s : BufferState) (now : ℚ)
    (hbs : send_mode = SendMode.idle_timeout →
      event.keystate = key_down_value → "KEY_BACKSPACE" ∉ event.keycodes)
    (hstrong : send_mode ≠ SendMode.idle_timeout → s.last_input_time = none)
    (hinv : bufferInv s) :
    bufferInv (process_key_event shiftKeycodes kanaKeycodes keymap line_end
        terminator_keys send_on_enter send_mode event s now).2 ∧
      (send_mode ≠ SendMode.idle_timeout →
        (process_key_event shiftKeycodes kanaKeycodes keymap line_end
          terminator_keys send_on_enter send_mode event s now).2.last_input_time =
          none) := by
  unfold process_key_event
  by_cases ht : event.type ≠ EV_KEY
  · rw [if_pos ht]; exact ⟨hinv, hstrong⟩
  rw [if_neg ht]
  by_cases hd : event.keystate = key_down_value
  · rw [if_pos hd]
    by_cases hmode : send_mode = SendMode.idle_timeout
    · subst hmode
      refine ⟨foldl_down_inv_idle shiftKeycodes kanaKeycodes keymap line_end
        terminator_keys send_on_enter now event.keycodes ([], s)
        (hbs rfl hd) hinv, ?_⟩
      intro hne; exact absurd rfl hne
    · have hlit := foldl_down_lit_none shiftKeycodes kanaKeycodes keymap
        line_end terminator_keys send_on_enter send_mode now hmode
        event.keycodes ([], s) (hstrong hmode)
      exact ⟨fun _ => hlit, fun _ => hlit⟩
  rw [if_neg hd]
  by_cases hu : event.keystate = key_up_value
  · rw [if_pos hu]
    obtain ⟨h1, h2⟩ := foldl_up_fields shiftKeycodes event.keycodes s
    refine ⟨fun htext => ?_, fun hne => h2.trans (hstrong hne)⟩
    exact h2.trans (hinv (h1.symm.trans htext))
  · rw [if_neg hu]
    exact ⟨hinv, hstrong⟩

/-- C5 (amended): starting from the initial buffer state, after every event
of any decoder run the state satisfies `text = "" → last_input_time` unset,
provided either the send mode is not `idle_timeout` or no down event carries
the Backspace keycode.  (In `idle_timeout` mode, a Backspace down event sets
`last_input_time` to the current time even when `text` is — or becomes —
empty, which is the sole violation of the frozen claim.) -/
theorem C5_amended (shiftKeycodes kanaKeycodes : List String)
    (keymap : KeyMapper) (line_end : String) (terminator_keys : List String)
    (send_on_enter : Bool) (send_mode : SendMode)
    (events : List (InputEvent × ℚ))
    (hcond : send_mode ≠ SendMode.idle_timeout ∨
      ∀ ev ∈ events, ev.1.keystate = key_down_value →
        "KEY_BACKSPACE" ∉ ev.1.keycodes) :
    ∀ n, bufferInv (process_events shiftKeycodes kanaKeycodes keymap line_end
      terminator_keys send_on_enter send_mode (events.take n)
      ⟨"", [], false, none, none, none⟩) := by
  have main : ∀ (evs : List (InputEvent × ℚ)) (s : BufferState),
      (∀ ev ∈ evs, ev.1.keystate = key_down_value →
        "KEY_BACKSPACE" ∉ ev.1.keycodes) ∨
        send_mode ≠ SendMode.idle_timeout →
      (send_mode ≠ SendMode.idle_timeout → s.last_input_time = none) →
      bufferInv s →
      bufferInv (process_events shiftKeycodes kanaKeycodes keymap line_end
          terminator_keys send_on_enter send_mode evs s) ∧
        (send_mode ≠ SendMode.idle_timeout →
          (process_events shiftKeycodes kanaKeycodes keymap line_end
            terminator_keys send_on_enter send_mode evs s).last_input_time =
            none) := by
    intro evs
    induction evs with
    | nil => intro s _ hstrong hinv; exact ⟨hinv, hstrong⟩
    | cons ev t ih =>
      intro s hc hstrong hinv
      have hbs : send_mode = SendMode.idle_timeout →
          ev.1.keystate = key_down_value →
          "KEY_BACKSPACE" ∉ ev.1.keycodes := by
        intro hm
        cases hc with
        | inl hall => exact hall ev (List.mem_cons_self _ _)
        | inr hne => exact absurd hm hne
      obtain ⟨g1, g2⟩ := process_key_event_inv shiftKeycodes kanaKeycodes
        keymap line_end terminator_keys send_on_enter send_mode ev.1 s ev.2
        hbs hstrong hinv
      have hc' : (∀ e ∈ t, e.1.keystate = key_down_value →
          "KEY_BACKSPACE" ∉ e.1.keycodes) ∨
          send_mode ≠ SendMode.idle_timeout := by
        cases hc with
        | inl hall =>
          exact Or.inl (fun e he => hall e (List.mem_cons_of_mem _ he))
        | inr hne => exact Or.inr hne
      exact ih _ hc' g2 g1
  intro n
  have hc0 : (∀ ev ∈ events.take n, ev.1.keystate = key_down_value →
      "KEY_BACKSPACE" ∉ ev.1.keycodes) ∨
      send_mode ≠ SendMode.idle_timeout := by
    cases hcond with
    | inl hne => exact Or.inr hne
    | inr hall =>
      exact Or.inl (fun ev hev => hall ev (List.take_subset n events hev))
  exact (main (events.take n) ⟨"", [], false, none, none, none⟩ hc0
    (fun _ => rfl) (fun _ => rfl)).1

/-- Witness for C5 (amended): a down–up–down run with shift and a mapped key
in `on_enter` mode keeps the invariant after the whole run. -/
theorem C5_amended_witness :
    bufferInv (process_events SHIFT_KEYCODES [] km0 "\r\n"
      ["KEY_ENTER", "KEY_KPENTER"] true SendMode.on_enter
      ([(⟨1, ["KEY_LEFTSHIFT"], 1⟩, 1), (⟨1, ["KEY_A"], 1⟩, 2),
        (⟨1, ["KEY_LEFTSHIFT"], 0⟩, 3)].take 3)
      ⟨"", [], false, none, none, none⟩) :=
  C5_amended SHIFT_KEYCODES [] km0 "\r\n" ["KEY_ENTER", "KEY_KPENTER"] true
    SendMode.on_enter
    [(⟨1, ["KEY_LEFTSHIFT"], 1⟩, 1), (⟨1, ["KEY_A"], 1⟩, 2),
      (⟨1, ["KEY_LEFTSHIFT"], 0⟩, 3)]
    (Or.inl (by decide)) 3

/-- Counterexample to C5 as frozen: in `idle_timeout` mode a single Backspace
down event from the initial state leaves `text` empty but arms
`last_input_time`, violating the invariant. -/
theorem C5_counterexample :
    ¬ bufferInv (process_events SHIFT_KEYCODES [] km0 "\r\n"
      ["KEY_ENTER", "KEY_KPENTER"] true SendMode.idle_timeout
      [(⟨1, ["KEY_BACKSPACE"], 1⟩, 5)] ⟨"", [], false, none, none, none⟩) := by
  intro h
  exact Option.noConfusion (h rfl)

/-! ## C8: the supervisor -/

/-- C8 (confirmed): inside a supervisor iteration, a reconnect-eligible error
propagates immediately when `reconnect_interval` is 0; when the interval is
positive, each of a run of k reconnect-eligible failures costs exactly one
sleep of the configured duration before the terminal outcome (a success or a
non-eligible failure) is reached; and a non-eligible error is never caught —
it propagates with no sleep regardless of the interval. -/
theorem C8_supervisor (reconnect_interval_seconds : ℚ)
    (rest : List Attempt) (e : ErrorKind) (es : List ErrorKind)
    (terminal : Attempt) :
    (reconnect_interval_seconds = 0 → reconnect_eligible e = true →
      run_event_loop "evdev" reconnect_interval_seconds
          (Attempt.failure e :: rest) =
        ([], RunOutcome.raised e)) ∧
    (reconnect_eligible e = false →
      run_event_loop "evdev" reconnect_interval_seconds
          (Attempt.failure e :: rest) =
        ([], RunOutcome.raised e)) ∧
    (0 < reconnect_interval_seconds →
      (∀ k ∈ es, reconnect_eligible k = true) →
      (terminal = Attempt.success ∨
        ∃ k2, terminal = Attempt.failure k2 ∧ reconnect_eligible k2 = false) →
      run_event_loop "evdev" reconnect_interval_seconds
          (es.map Attempt.failure ++ [terminal]) =
        (es.map (fun _ => reconnect_interval_seconds),
          match terminal with
          | Attempt.success => RunOutcome.finished
          | Attempt.failure k2 => RunOutcome.raised k2)) := by
  have hmode : ¬ ("evdev" ≠ "evdev") := fun h => h rfl
  refine ⟨?_, ?_, ?_⟩
  · intro hz he
    unfold run_event_loop supervise
    rw [if_neg hmode, if_pos he, if_pos (le_of_eq hz)]
  · intro he
    unfold run_event_loop supervise
    rw [if_neg hmode]
    simp [he]
  · intro hpos hall hterm
    unfold run_event_loop
    rw [if_neg hmode]
    induction es with
    | nil =>
      cases hterm with
      | inl hs => subst hs; rfl
      | inr hf =>
        obtain ⟨k2, hk2, hne⟩ := hf
        subst hk2
        unfold supervise
        simp [hne]
    | cons k t ih =>
      have hk := hall k (List.mem_cons_self _ _)
      have ht : ∀ k2 ∈ t, reconnect_eligible k2 = true :=
        fun k2 hk2 => hall k2 (List.mem_cons_of_mem _ hk2)
      rw [List.map_cons, List.cons_append]
      unfold supervise
      rw [if_pos hk, if_neg (not_le.mpr hpos)]
      rw [ih ht]
      rfl

/-- Witness for C8 mirroring seed test S6: one eligible serial failure, then
an iteration that fails with a non-eligible runtime error, under a positive
reconnect interval — exactly one sleep of that duration, then the runtime
error propagates. -/
theorem C8_supervisor_witness :
    run_event_loop "evdev" 2
        [Attempt.failure ErrorKind.serialConnection,
          Attempt.failure ErrorKind.runtimeError] =
      ([2], RunOutcome.raised ErrorKind.runtimeError) :=
  (C8_supervisor 2 [] ErrorKind.serialConnection [ErrorKind.serialConnection]
      (Attempt.failure ErrorKind.runtimeError)).2.2
    (by norm_num) (by decide)
    (Or.inr ⟨ErrorKind.runtimeError, rfl, by decide⟩)

/-! ## C7: device auto-selection among multiple matches -/

/-- Computation of `_select_single_device` on a list of two or more matches,
expressed through the head and second element of the sorted score list. -/
theorem select_single_device_cons_cons (m1 m2 : Device) (mt : List Device)
    (config : InputCfg) (b1 : Device) (b2 : ℤ) (r1 : Device) (r2 : ℤ)
    (rest : List (Device × ℤ))
    (hs : scoredSorted (m1 :: m2 :: mt) config =
      (b1, b2) :: (r1, r2) :: rest) :
    select_single_device (m1 :: m2 :: mt) config =
      if 0 < b2 ∧ r2 < b2 then
        (some b1,
          ((((b1, b2) :: (r1, r2) :: rest).map Prod.fst).filter
            (fun d => d ≠ b1)))
      else (none, []) := by
  unfold select_single_device
  simp only [hs, List.headD_cons]

/-- C7 (confirmed): when VID/PID enumeration yields two or more matching
devices, the stable descending score list starts with a maximal-score head
`b` and runner-up `r`; the head device is selected if and only if its score
is strictly positive and strictly greater than the runner-up's — closing
every other candidate — and otherwise every candidate is closed and a
DeviceNotFound error with the multiple-matches message is raised. -/
theorem C7_selection (devices : List Device) (access_error : Bool)
    (config : InputCfg)
    (h2 : 2 ≤ (vid_pid_matches devices config).length) :
    ∃ b r rest,
      scoredSorted (vid_pid_matches devices config) config = b :: r :: rest ∧
      (∀ d ∈ vid_pid_matches devices config, score_device d config ≤ b.2) ∧
      (0 < b.2 ∧ r.2 < b.2 →
        (select_device_by_vid_pid devices access_error config).1 =
          Except.ok b.1 ∧
        ∀ d ∈ vid_pid_matches devices config, d ≠ b.1 →
          d ∈ (select_device_by_vid_pid devices access_error config).2) ∧
      (¬ (0 < b.2 ∧ r.2 < b.2) →
        (select_device_by_vid_pid devices access_error config).1 =
          Except.error (SelectError.deviceNotFound multipleMatchesMsg) ∧
        ∀ d ∈ vid_pid_matches devices config,
          d ∈ (select_device_by_vid_pid devices access_error config).2) := by
  have hslen : (scoredSorted (vid_pid_matches devices config) config).length =
      (vid_pid_matches devices config).length := by
    unfold scoredSorted
    rw [(List.perm_insertionSort _ _).length_eq, List.length_map]
  rcases hMeq : vid_pid_matches devices config with _ | ⟨m1, _ | ⟨m2, mt⟩⟩
  · rw [hMeq] at h2; simp at h2
  · rw [hMeq] at h2; simp at h2
  rw [hMeq] at hslen
  rcases hs : scoredSorted (m1 :: m2 :: mt) config with _ | ⟨b, _ | ⟨r, rest⟩⟩
  · exfalso; rw [hs] at hslen; simp at hslen
  · exfalso; rw [hs] at hslen; simp at hslen
  have hsorted : List.Sorted scoreDesc (b :: r :: rest) := by
    have hsd : List.Sorted scoreDesc (scoredSorted (m1 :: m2 :: mt) config) :=
      List.sorted_insertionSort scoreDesc _
    rw [hs] at hsd
    exact hsd
  have hmax : ∀ d ∈ (m1 :: m2 :: mt), score_device d config ≤ b.2 := by
    intro d hd
    have hmem : (d, score_device d config) ∈
        scoredSorted (m1 :: m2 :: mt) config := by
      unfold scoredSorted
      exact (List.perm_insertionSort _ _).mem_iff.mpr
        (List.mem_map_of_mem _ hd)
    rw [hs] at hmem
    rcases List.mem_cons.mp hmem with heq | htail
    · exact le_of_eq (congrArg Prod.snd heq)
    · exact List.rel_of_sorted_cons hsorted _ htail
  obtain ⟨b1, b2⟩ := b
  obtain ⟨r1, r2⟩ := r
  have hss := select_single_device_cons_cons m1 m2 mt config b1 b2 r1 r2
    rest hs
  have hmemfst : ∀ d ∈ (m1 :: m2 :: mt),
      d ∈ (((b1, b2) :: (r1, r2) :: rest).map Prod.fst) := by
    intro d hd
    have hmem : (d, score_device d config) ∈
        scoredSorted (m1 :: m2 :: mt) config := by
      unfold scoredSorted
      exact (List.perm_insertionSort _ _).mem_iff.mpr
        (List.mem_map_of_mem _ hd)
    rw [hs] at hmem
    exact List.mem_map_of_mem Prod.fst hmem
  refine ⟨(b1, b2), (r1, r2), rest, rfl, hmax, ?_, ?_⟩
  · intro hcond
    have hss1 : select_single_device (m1 :: m2 :: mt) config =
        (some b1,
          ((((b1, b2) :: (r1, r2) :: rest).map Prod.fst).filter
            (fun d => d ≠ b1))) := by
      rw [hss, if_pos hcond]
    have hres : select_device_by_vid_pid devices access_error config =
        (Except.ok b1,
          devices.filter
              (fun d => !match_device_info d config.vendor_id
                config.product_id) ++
            ((((b1, b2) :: (r1, r2) :: rest).map Prod.fst).filter
              (fun d => d ≠ b1))) := by
      unfold select_device_by_vid_pid
      simp only [hMeq, hss1, List.isEmpty_cons]
      simp
    refine ⟨by rw [hres], ?_⟩
    intro d hd hdb
    rw [hres]
    refine List.mem_append_right _ (List.mem_filter.mpr ⟨hmemfst d hd, ?_⟩)
    simp [hdb]
  · intro hcond
    have hss1 : select_single_device (m1 :: m2 :: mt) config =
        (none, []) := by
      rw [hss, if_neg hcond]
    have hres : select_device_by_vid_pid devices access_error config =
        (Except.error (SelectError.deviceNotFound multipleMatchesMsg),
          devices.filter
              (fun d => !match_device_info d config.vendor_id
                config.product_id) ++
            [] ++ (m1 :: m2 :: mt)) := by
      unfold select_device_by_vid_pid
      simp only [hMeq, hss1, List.isEmpty_cons]
      simp
    refine ⟨by rw [hres], ?_⟩
    intro d hd
    rw [hres]
    exact List.mem_append_right _ hd

/-- Concrete candidates for the C7 witness, mirroring seed scenario S4: both
share the configured VID/PID; only the second has `KEY_ENTER` in its EV_KEY
capability set. -/
def devA : Device :=
  ⟨"/dev/input/event0", 0x1234, 0x5678, some "Keyboard", none, none, []⟩

def devB : Device :=
  ⟨"/dev/input/event1", 0x1234, 0x5678, some "Scanner Device", none, none,
    ["KEY_ENTER"]⟩

def cfgSel : InputCfg := ⟨0x1234, 0x5678, none, ["KEY_ENTER"]⟩

/-- Witness for C7 at scenario S4: the device with the preferred key scores 2
against 0 and is auto-selected; the loser is closed. -/
theorem C7_selection_witness :
    (select_device_by_vid_pid [devA, devB] false cfgSel).1 = Except.ok devB ∧
      devA ∈ (select_device_by_vid_pid [devA, devB] false cfgSel).2 := by
  obtain ⟨b, r, rest, hs, hmax, hsel, hfail⟩ :=
    C7_selection [devA, devB] false cfgSel (by decide)
  have hsval : scoredSorted (vid_pid_matches [devA, devB] cfgSel) cfgSel =
      [(devB, 2), (devA, 0)] := by decide
  rw [hsval] at hs
  injection hs with hb hs2
  injection hs2 with hr hrest
  subst hb; subst hr
  obtain ⟨hok, hclosed⟩ := hsel (by decide)
  exact ⟨hok, hclosed devA (by decide) (by decide)⟩

end Key2Ser
